import Mathlib

/-!
Verification of the write-coordination and block machinery of a RocksDB
snapshot.  The definitions below are shallow embeddings of the C++ sources:

* `src/db/log_format.h` — the `log` namespace constants and `RecordType`
  enum, and the `WriteThread` implementation (`LinkOne`, `AwaitState`,
  `EnterAsBatchGroupLeader`, `CompleteParallelMemTableWriter`).
* `src/table/block.h` — `BlockReadAmpBitmap`, `BlockIter`,
  `IndexBlockIter`.
* `src/util/arena.h` — `Arena::Allocate` (fast path) and
  `Arena::ApproximateMemoryUsage`.

Machine integers are modelled with `Nat`/`Int`; the concurrent code is
modelled by explicit state passing, serializing the atomic operations.
-/

namespace RocksDB

/-! ## `log` namespace constants (src/db/log_format.h, lines 36-72) -/

/-- `RecordType` enum from `src/db/log_format.h`. -/
inductive RecordType where
  | kZeroType
  | kFullType
  | kFirstType
  | kMiddleType
  | kLastType
  | kRecyclableFullType
  | kRecyclableFirstType
  | kRecyclableMiddleType
  | kRecyclableLastType
deriving DecidableEq, Repr

/-- `static const unsigned int kBlockSize = 32768;` -/
def kBlockSize : Nat := 32768

/-- `static const int kHeaderSize = 4 + 2 + 1;` -/
def kHeaderSize : Nat := 4 + 2 + 1

/-- `static const int kRecyclableHeaderSize = 4 + 2 + 1 + 4;` -/
def kRecyclableHeaderSize : Nat := 4 + 2 + 1 + 4

/-! ## WAL record framing

The framing loop itself (`log::Writer::AddRecord`) is not part of the
sources under `src/`; only the constants and `RecordType` above are.  The
loop is modelled from the spec (section 4.B). -/

/-- Record type chosen by position in the fragment sequence:
first chunk and nothing remaining => FULL; first chunk with more
remaining => FIRST; final chunk => LAST; interior chunk => MIDDLE
(recyclable counterparts in recyclable mode). -/
def fragmentType (recyclable isBegin isEnd : Bool) : RecordType :=
  if isBegin && isEnd then
    if recyclable then .kRecyclableFullType else .kFullType
  else if isBegin then
    if recyclable then .kRecyclableFirstType else .kFirstType
  else if isEnd then
    if recyclable then .kRecyclableLastType else .kLastType
  else
    if recyclable then .kRecyclableMiddleType else .kMiddleType

/-- Modelled from the spec: the body of `log::Writer::AddRecord` is not
under `src/` (only `src/db/log_format.h` constants are), so the framing
loop is taken from spec section 4.B: compute
`space_left = kBlockSize - block_offset`; if `space_left` is smaller than
the header, zero-pad and start a fresh block; emit one physical record
with payload `min(left, space_left - header)` whose type is given by
`fragmentType`; repeat until all payload bytes are consumed.  The first
argument is recursion fuel (each emitted record is returned with its
payload length). -/
def addRecordLoop : Nat → Bool → Bool → Nat → Nat → List (RecordType × Nat)
  | 0, _, _, _, _ => []
  | fuel + 1, recyclable, isBegin, left, blockOffset =>
    let header := if recyclable then kRecyclableHeaderSize else kHeaderSize
    let offset := if kBlockSize - blockOffset < header then 0 else blockOffset
    let avail := kBlockSize - offset - header
    let frag := min left avail
    let isEnd := left = frag
    (fragmentType recyclable isBegin isEnd, frag) ::
      (if isEnd then []
       else addRecordLoop fuel recyclable false (left - frag) (offset + header + frag))

/-- Modelled from the spec: physical records emitted for one user payload
of `len` bytes starting at `blockOffset` inside the current block. -/
def walRecords (recyclable : Bool) (len blockOffset : Nat) : List (RecordType × Nat) :=
  addRecordLoop (len + 1) recyclable true len blockOffset

/-- Total on-disk bytes of a list of non-recyclable physical records when
no block padding is needed (every header is `kHeaderSize` bytes). -/
def walOnDiskSize (records : List (RecordType × Nat)) : Nat :=
  records.foldl (fun acc r => acc + kHeaderSize + r.2) 0

/-! ## Block iterators (`src/table/block.h`)

`BlockIter` state restricted to the fields the claims are about.  The
`comparator_`, `data_` pointer and pinning flags play no role in `Valid`,
`InitializeBase` or `IndexBlockIter::SeekForPrev`, so the key and value
are kept as abstract byte lists and the status as an explicit sum. -/

/-- A `rocksdb::Status` value as observed through the block/writer code:
only the constructors actually produced there are modelled. -/
inductive RStatus where
  | ok
  | incomplete (msg : String)
  | invalidArgument (msg : String)
  | ioError (msg : String)
deriving DecidableEq, Repr

/-- The fields of `BlockIter` involved in the claims
(`src/table/block.h`, member list at lines 307-352). -/
structure BlockIterState where
  restarts : Nat
  numRestarts : Nat
  current : Nat
  restartIndex : Nat
  key : List Nat
  value : List Nat
  status : RStatus
deriving DecidableEq, Repr

/-- `BlockIter::InitializeBase` (src/table/block.h lines 240-258):
`current_ = restarts_; restart_index_ = num_restarts_;` on a
freshly-constructed iterator (empty key and value, ok status).
The C++ code asserts `num_restarts > 0`. -/
def initializeBase (restarts numRestarts : Nat) : BlockIterState :=
  { restarts := restarts
    numRestarts := numRestarts
    current := restarts
    restartIndex := numRestarts
    key := []
    value := []
    status := .ok }

/-- `BlockIter::Valid` (src/table/block.h line 275):
`return current_ < restarts_;` -/
def blockIterValid (s : BlockIterState) : Bool :=
  s.current < s.restarts

/-- `IndexBlockIter::SeekForPrev` (src/table/block.h lines 570-579):
ignores the target, sets `current_ = restarts_`,
`restart_index_ = num_restarts_`, an `InvalidArgument` status, and clears
key and value. -/
def indexSeekForPrev (s : BlockIterState) (_target : List Nat) : BlockIterState :=
  { s with
    current := s.restarts
    restartIndex := s.numRestarts
    status := .invalidArgument
      "RocksDB internal error: should never call SeekForPrev() on index blocks"
    key := []
    value := [] }

/-! ## Writer coordinator (`WriteThread`, src/db/log_format.h) -/

/-- `WriteThread` writer states (bitmask values in the C++ source; the
set structure of `AwaitState` goal masks is not needed by the claims, so
the states are modelled as a plain enumeration). -/
inductive WState where
  | init
  | groupLeader
  | memtableWriterLeader
  | parallelMemtableWriter
  | completed
  | lockedWaiting
deriving DecidableEq, Repr

/-- The fields of `WriteThread::Writer` that `EnterAsBatchGroupLeader`
inspects.  `batch` is the byte size of the writer's `WriteBatch`
(`WriteBatchInternal::ByteSize`), `none` standing for a null batch;
`callback` is `none` for a null callback pointer and `some b` for a
callback whose `AllowWriteBatching()` returns `b`. -/
structure BatchWriter where
  batch : Option Nat
  sync : Bool
  noSlowdown : Bool
  disableWal : Bool
  callback : Option Bool
deriving DecidableEq, Repr

/-- `max_size` computation of `WriteThread::EnterAsBatchGroupLeader`
(src/db/log_format.h lines 587-590):
`size_t max_size = 1 << 20; if (size <= (128 << 10)) max_size = size + (128 << 10);` -/
def maxGroupSize (leaderSize : Nat) : Nat :=
  if leaderSize ≤ 128 * 1024 then leaderSize + 128 * 1024 else 1048576

/-- The follower-selection loop of `WriteThread::EnterAsBatchGroupLeader`
(src/db/log_format.h lines 616-665).  `size` is the cumulative byte size
so far; candidates are visited oldest first (the `link_newer` walk from
the leader towards `newest_writer_`).  Each `break` of the C++ loop stops
selection, excluding the current candidate and everything after it.
Returns the selected followers (in order) and the final cumulative
size. -/
def pickFollowers (leader : BatchWriter) (maxSize : Nat) :
    Nat → List BatchWriter → List BatchWriter × Nat
  | size, [] => ([], size)
  | size, w :: ws =>
    if w.sync && !leader.sync then ([], size)
    else if w.noSlowdown != leader.noSlowdown then ([], size)
    else if !w.disableWal && leader.disableWal then ([], size)
    else
      match w.batch with
      | none => ([], size)
      | some batchSize =>
        if w.callback == some false then ([], size)
        else if size + batchSize > maxSize then ([], size)
        else
          let rest := pickFollowers leader maxSize (size + batchSize) ws
          (w :: rest.1, rest.2)

/-- `WriteThread::EnterAsBatchGroupLeader` (src/db/log_format.h lines
571-668), restricted to group construction: the leader's batch size
seeds `size`, `max_size` is computed from it, and the writers between
the leader and `newest_writer_` are filtered by `pickFollowers`.
Returns the selected followers and the total size (the function's
return value). -/
def enterAsBatchGroupLeader (leader : BatchWriter) (candidates : List BatchWriter) :
    List BatchWriter × Nat :=
  let size := leader.batch.getD 0
  pickFollowers leader (maxGroupSize size) size candidates

/-- The `max_size` rule exactly as claim C1 words it: 1 MiB, or
`leader_size + 128 KiB` when the leader's batch size is strictly
less than 128 KiB.  Kept separate from `maxGroupSize` (which follows the
source) so the two can be compared. -/
def claimedMaxGroupSize (leaderSize : Nat) : Nat :=
  if leaderSize < 128 * 1024 then leaderSize + 128 * 1024 else 1048576

/-- Sum of the batch sizes of a list of writers (null batches count 0;
they never occur inside a selected prefix). -/
def sumBatchSizes : List BatchWriter → Nat
  | [] => 0
  | w :: ws => w.batch.getD 0 + sumBatchSizes ws

/-- All stop conditions of the selection loop except the size check,
i.e. whether candidate `w` is flag-compatible with the leader. -/
def flagsCompatible (leader w : BatchWriter) : Bool :=
  !(w.sync && !leader.sync) && !(w.noSlowdown != leader.noSlowdown) &&
    !(!w.disableWal && leader.disableWal) && w.batch.isSome &&
    !(w.callback == some false)

/-- Whether the selection loop admits candidate `w` when the cumulative
size so far is `size`: flag-compatible and the size check passes. -/
def admits (leader : BatchWriter) (maxSize size : Nat) (w : BatchWriter) : Bool :=
  flagsCompatible leader w && size + w.batch.getD 0 ≤ maxSize

/-- Whether every writer of the list is admitted in sequence starting
from cumulative size `size`. -/
def allAdmitted (leader : BatchWriter) (maxSize : Nat) : Nat → List BatchWriter → Bool
  | _, [] => true
  | size, w :: ws =>
    admits leader maxSize size w && allAdmitted leader maxSize (size + w.batch.getD 0) ws

/-! ## `WriteThread::LinkOne` (src/db/log_format.h lines 354-400)

The pre-WAL queue is modelled by the list of linked writer ids (newest
first, i.e. starting from `newest_writer_` and following `link_older`)
plus a flag recording whether `write_stall_dummy_` currently sits at the
head.  A sequential execution of `LinkOne` either completes (the CAS loop
succeeds) or, when the stall sentinel is present and the writer tolerates
slowdowns, blocks on `stall_cv_` until `EndWriteStall` runs. -/

/-- A writer as seen by `LinkOne`: its id (standing for the node
address), the `no_slowdown` flag, and the mutable `state`/`status`
fields. -/
structure LWriter where
  id : Nat
  noSlowdown : Bool
  state : WState
  status : RStatus
deriving DecidableEq, Repr

/-- The `newest_writer_` queue: `stalled` is true when the head is
`&write_stall_dummy_`; `queue` lists the linked writer ids newest
first (excluding the sentinel). -/
structure WTQueue where
  stalled : Bool
  queue : List Nat
deriving DecidableEq, Repr

/-- Outcome of one sequential `LinkOne` call. -/
inductive LinkResult where
  | linkedLeader
  | linkedFollower
  | rejectedStall
  | blockedOnStall
deriving DecidableEq, Repr

/-- `WriteThread::LinkOne`, serialized: if the loaded head is the stall
sentinel and `w->no_slowdown`, fail the writer
(`Status::Incomplete("Write stall")`, `STATE_COMPLETED`) and return false
without touching the queue; if stalled otherwise, block on `stall_cv_`
(modelled as `blockedOnStall` with the state unchanged — the caller
retries after `EndWriteStall`); otherwise CAS-prepend `w` and return
true iff the previous head was null. -/
def linkOne (w : LWriter) (q : WTQueue) : LinkResult × LWriter × WTQueue :=
  if q.stalled then
    if w.noSlowdown then
      (.rejectedStall,
       { w with status := .incomplete "Write stall", state := .completed }, q)
    else
      (.blockedOnStall, w, q)
  else
    (if q.queue.isEmpty then .linkedLeader else .linkedFollower,
     w, { q with queue := w.id :: q.queue })

/-- `WriteThread::EndWriteStall` (src/db/log_format.h lines 502-510):
`newest_writer_.exchange(write_stall_dummy_.link_older)` — the sentinel
is removed and the writers linked behind it become the queue again. -/
def endWriteStall (q : WTQueue) : WTQueue :=
  { q with stalled := false }

/-! ## Yield credit (`WriteThread::AwaitState`, src/db/log_format.h
lines 316-338) -/

/-- The sampled yield-credit update in `AwaitState`:
`v = v - (v / 1024) + (would_spin_again ? 1 : -1) * 131072;`
`v` is a C++ `int32_t`, so `/` truncates towards zero (`Int.tdiv`). -/
def yieldCreditUpdate (v : Int) (wouldSpinAgain : Bool) : Int :=
  v - Int.tdiv v 1024 + (if wouldSpinAgain then 1 else -1) * 131072

/-- Repeated application of the credit update, one sampled outcome per
list element. -/
def yieldCreditIter (v : Int) : List Bool → Int
  | [] => v
  | b :: bs => yieldCreditIter (yieldCreditUpdate v b) bs

/-! ## `WriteThread::CompleteParallelMemTableWriter`
(src/db/log_format.h lines 788-808) -/

/-- The parallel-phase group state: the `running` counter (initialized
to the group size by `LaunchParallelMemTableWriters`) and the shared
`status`. -/
structure ParGroup where
  running : Nat
  status : RStatus
deriving DecidableEq, Repr

/-- One serialized call of `CompleteParallelMemTableWriter` by a writer
whose own status is `wStatus`: a non-ok writer status is first copied
into the group status (under the leader's state mutex); `running--`
(post-decrement) observes the old value; a caller observing a value
greater than 1 waits on `STATE_COMPLETED` (so its state on return is
`completed`) and returns false; the caller observing 1 copies the group
status into its own status and returns true.  Returns
(observed counter, returned bool, writer's status on return, new group
state). -/
def completeParallelStep (g : ParGroup) (wStatus : RStatus) :
    Nat × Bool × RStatus × ParGroup :=
  let g1 := if wStatus ≠ .ok then { g with status := wStatus } else g
  let observed := g1.running
  let g2 := { g1 with running := g1.running - 1 }
  if observed > 1 then
    (observed, false, wStatus, g2)
  else
    (observed, true, g2.status, g2)

/-- Serialize the `CompleteParallelMemTableWriter` calls of all group
members in the order in which their atomic decrements land; the list
carries each caller's own status at the time of its call.  Returns the
per-call results and the final group state. -/
def runCompleters (g : ParGroup) : List RStatus → List (Nat × Bool × RStatus) × ParGroup
  | [] => ([], g)
  | s :: ss =>
    let r := completeParallelStep g s
    let rest := runCompleters r.2.2.2 ss
    ((r.1, r.2.1, r.2.2.1) :: rest.1, rest.2)

/-! ## `BlockReadAmpBitmap` (src/table/block.h lines 49-142) -/

/-- `BlockReadAmpBitmap` state: `pow` is `bytes_per_bit_pow_`, `rnd` is
`rnd_` (drawn uniformly from `[0, bytes_per_bit)`), `bits` is the set of
bit indices that are 1 in `bitmap_`, and `reported` accumulates the
`READ_AMP_ESTIMATE_USEFUL_BYTES` ticks sent to the statistics sink. -/
structure AmpBitmap where
  pow : Nat
  rnd : Nat
  bits : List Nat
  reported : Nat
deriving DecidableEq, Repr

/-- Index of the first bit in the mask of `Mark`:
`(start_offset + (1 << bytes_per_bit_pow_) - rnd_ - 1) >> bytes_per_bit_pow_`. -/
def ampStartBit (pow rnd so : Nat) : Nat :=
  (so + 2 ^ pow - rnd - 1) / 2 ^ pow

/-- Index of the last bit in the mask plus one:
`(end_offset + (1 << bytes_per_bit_pow_) - rnd_) >> bytes_per_bit_pow_`. -/
def ampExclEndBit (pow rnd eo : Nat) : Nat :=
  (eo + 2 ^ pow - rnd) / 2 ^ pow

/-- `BlockReadAmpBitmap::Mark` (src/table/block.h lines 81-101): when
the bit range is non-empty and `GetAndSet(start_bit)` finds the start
bit at 0, the start bit is set and
`(exclusive_end_bit - start_bit) << bytes_per_bit_pow_` bytes are
reported; in every other case nothing changes (the `fetch_or` of an
already-set bit leaves the bitmap as it was). -/
def ampMark (b : AmpBitmap) (so eo : Nat) : AmpBitmap :=
  let sb := ampStartBit b.pow b.rnd so
  let eb := ampExclEndBit b.pow b.rnd eo
  if sb ≥ eb then b
  else if sb ∈ b.bits then b
  else { b with
    bits := sb :: b.bits
    reported := b.reported + (eb - sb) * 2 ^ b.pow }

/-! ## `Arena::Allocate` (src/util/arena.h lines 144-158) -/

/-- The state of an `Arena` restricted to what `Allocate` (fast path)
and `ApproximateMemoryUsage` touch: `blocksMemory` is `blocks_memory_`,
`blocksCapacity` is `blocks_.capacity()`, `unalignedPtr` is the address
held in `unaligned_alloc_ptr_`, `allocBytesRemaining` is
`alloc_bytes_remaining_`, and `blocks` the vector of block
addresses. -/
structure ArenaState where
  blocksMemory : Nat
  blocksCapacity : Nat
  unalignedPtr : Nat
  allocBytesRemaining : Nat
  blocks : List Nat
deriving DecidableEq, Repr

/-- `Arena::ApproximateMemoryUsage` (src/util/arena.h lines 79-82):
`blocks_memory_ + blocks_.capacity() * sizeof(char*) -
alloc_bytes_remaining_` with `sizeof(char*) = 8`. -/
def approximateMemoryUsage (s : ArenaState) : Nat :=
  s.blocksMemory + s.blocksCapacity * 8 - s.allocBytesRemaining

/-- `Arena::Allocate` (src/util/arena.h lines 144-158).  The
`assert(bytes > 0)` is modelled by returning `none` for a zero-byte
request.  On the fast path (`bytes <= alloc_bytes_remaining_`) the
unaligned bump pointer moves down by `bytes` and is returned; the slow
path calls `AllocateFallback`, whose body lives in `arena.cc` (not under
`src/`), left abstract as `none`. -/
def arenaAllocate (bytes : Nat) (s : ArenaState) : Option (Nat × ArenaState) :=
  if bytes = 0 then none
  else if bytes ≤ s.allocBytesRemaining then
    some (s.unalignedPtr - bytes,
      { s with
        unalignedPtr := s.unalignedPtr - bytes
        allocBytesRemaining := s.allocBytesRemaining - bytes })
  else none

/-! ## Helper lemmas -/

/-- One step of the follower-selection loop, phrased through `admits`. -/
theorem pickFollowers_cons (leader : BatchWriter) (maxSize size : Nat)
    (w : BatchWriter) (ws : List BatchWriter) :
    pickFollowers leader maxSize size (w :: ws) =
      if admits leader maxSize size w then
        ((w :: (pickFollowers leader maxSize (size + w.batch.getD 0) ws).1),
         (pickFollowers leader maxSize (size + w.batch.getD 0) ws).2)
      else ([], size) := by
  by_cases h1 : (w.sync && !leader.sync) = true
  · simp [pickFollowers, admits, flagsCompatible, h1]
  · simp only [Bool.not_eq_true] at h1
    by_cases h2 : (w.noSlowdown != leader.noSlowdown) = true
    · simp [pickFollowers, admits, flagsCompatible, h1, h2]
    · simp only [Bool.not_eq_true] at h2
      by_cases h3 : (!w.disableWal && leader.disableWal) = true
      · simp [pickFollowers, admits, flagsCompatible, h1, h2, h3]
      · simp only [Bool.not_eq_true] at h3
        cases hb : w.batch with
        | none => simp [pickFollowers, admits, flagsCompatible, h1, h2, h3, hb]
        | some n =>
          by_cases h4 : (w.callback == some false) = true
          · simp [pickFollowers, admits, flagsCompatible, h1, h2, h3, hb, h4]
          · simp only [Bool.not_eq_true] at h4
            by_cases h5 : size + n > maxSize
            · simp [pickFollowers, admits, flagsCompatible, h1, h2, h3, hb, h4,
                h5, Nat.not_le.mpr h5]
            · simp [pickFollowers, admits, flagsCompatible, h1, h2, h3, hb, h4,
                h5, Nat.le_of_not_lt h5]

/-- If every writer of `pre` is admitted in sequence and `w` is not
admitted at the resulting cumulative size, the selection loop returns
exactly `pre`, excluding `w` and everything after it. -/
theorem pickFollowers_stops (leader : BatchWriter) (maxSize : Nat) :
    ∀ (pre : List BatchWriter) (size : Nat) (w : BatchWriter)
      (suff : List BatchWriter),
      allAdmitted leader maxSize size pre = true →
      admits leader maxSize (size + sumBatchSizes pre) w = false →
      pickFollowers leader maxSize size (pre ++ w :: suff) =
        (pre, size + sumBatchSizes pre)
  | [], size, w, suff, _, hw => by
    simp only [sumBatchSizes, Nat.add_zero] at hw
    simp [pickFollowers_cons, hw, sumBatchSizes]
  | p :: ps, size, w, suff, hpre, hw => by
    simp only [allAdmitted, Bool.and_eq_true] at hpre
    have harith : size + p.batch.getD 0 + sumBatchSizes ps =
        size + sumBatchSizes (p :: ps) := by
      simp only [sumBatchSizes]
      omega
    have hrec := pickFollowers_stops leader maxSize ps (size + p.batch.getD 0)
      w suff hpre.2 (by rw [harith]; exact hw)
    simp only [List.cons_append, pickFollowers_cons, hpre.1, if_true, hrec, harith]

/-- One credit update stays inside the `int32_t` range. -/
theorem yieldCreditUpdate_bound (v : Int) (b : Bool)
    (h : |v| ≤ 2147483647) : |yieldCreditUpdate v b| ≤ 2147483647 := by
  obtain ⟨hlo, hhi⟩ := abs_le.mp h
  rw [abs_le]
  unfold yieldCreditUpdate
  cases v with
  | ofNat n =>
    have ht : Int.tdiv (Int.ofNat n) 1024 = Int.ofNat (n / 1024) := rfl
    rw [ht]
    simp only [Int.ofNat_eq_natCast] at *
    cases b <;> simp only [if_true, if_false, Bool.false_eq_true] <;>
      constructor <;> omega
  | negSucc n =>
    have ht : Int.tdiv (Int.negSucc n) 1024 = -Int.ofNat ((n + 1) / 1024) := rfl
    rw [ht]
    simp only [Int.ofNat_eq_natCast, Int.negSucc_eq] at *
    cases b <;> simp only [if_true, if_false, Bool.false_eq_true] <;>
      constructor <;> omega

/-- Any sequence of credit updates stays inside the `int32_t` range. -/
theorem yieldCreditIter_bound :
    ∀ (bs : List Bool) (v : Int), |v| ≤ 2147483647 →
      |yieldCreditIter v bs| ≤ 2147483647
  | [], _, h => h
  | b :: bs, v, h =>
    yieldCreditIter_bound bs _ (yieldCreditUpdate_bound v b h)

/-- The observed value of `running--` is the pre-decrement counter. -/
theorem completeParallelStep_obs (g : ParGroup) (s : RStatus) :
    (completeParallelStep g s).1 = g.running := by
  by_cases hs : s = RStatus.ok <;>
    simp [completeParallelStep, hs] <;> split_ifs <;> rfl

/-- `running--` decrements the counter by one whatever the branch. -/
theorem completeParallelStep_running (g : ParGroup) (s : RStatus) :
    (completeParallelStep g s).2.2.2.running = g.running - 1 := by
  by_cases hs : s = RStatus.ok <;>
    simp [completeParallelStep, hs] <;> split_ifs <;> rfl

/-- A caller that observes a counter above 1 returns false. -/
theorem completeParallelStep_false (g : ParGroup) (s : RStatus)
    (h : 1 < g.running) : (completeParallelStep g s).2.1 = false := by
  by_cases hs : s = RStatus.ok <;> simp [completeParallelStep, hs, h]

/-- A caller that observes a counter of at most 1 returns true. -/
theorem completeParallelStep_true (g : ParGroup) (s : RStatus)
    (h : ¬ 1 < g.running) : (completeParallelStep g s).2.1 = true := by
  by_cases hs : s = RStatus.ok <;> simp [completeParallelStep, hs, h]

/-- Unfolding of `runCompleters` on a cons. -/
theorem runCompleters_cons (g : ParGroup) (s : RStatus) (ss : List RStatus) :
    runCompleters g (s :: ss) =
      (((completeParallelStep g s).1, (completeParallelStep g s).2.1,
          (completeParallelStep g s).2.2.1) ::
            (runCompleters (completeParallelStep g s).2.2.2 ss).1,
        (runCompleters (completeParallelStep g s).2.2.2 ss).2) := rfl

/-- With the counter initialized to the group size, the serialized calls
return `false` for every member except the last one. -/
theorem runCompleters_bools :
    ∀ (ss : List RStatus) (g : ParGroup), g.running = ss.length → ss ≠ [] →
      (runCompleters g ss).1.map (fun x => x.2.1) =
        List.replicate (ss.length - 1) false ++ [true]
  | [s], g, hrun, _ => by
    have hb : (completeParallelStep g s).2.1 = true :=
      completeParallelStep_true g s (by simp [hrun])
    rw [runCompleters_cons]
    simp [hb, runCompleters]
  | s1 :: s2 :: ss, g, hrun, _ => by
    have hrun' : (completeParallelStep g s1).2.2.2.running =
        (s2 :: ss).length := by
      rw [completeParallelStep_running, hrun]
      simp
    have hrec := runCompleters_bools (s2 :: ss) _ hrun' (by simp)
    have hb : (completeParallelStep g s1).2.1 = false :=
      completeParallelStep_false g s1 (by simp [hrun])
    rw [runCompleters_cons, List.map_cons, hb, hrec]
    simp [List.replicate_succ]

/-- A serialized call returns true exactly when its decrement observed
the counter at 1. -/
theorem runCompleters_true_iff :
    ∀ (ss : List RStatus) (g : ParGroup), g.running = ss.length →
      ∀ x ∈ (runCompleters g ss).1, (x.2.1 = true ↔ x.1 = 1)
  | [], _, _, x, hx => by simp [runCompleters] at hx
  | s :: ss, g, hrun, x, hx => by
    rw [runCompleters_cons] at hx
    simp only [List.mem_cons] at hx
    rcases hx with rfl | hx
    · cases ss with
      | nil =>
        have hb := completeParallelStep_true g s (by simp [hrun])
        have ho := completeParallelStep_obs g s
        simp [hb, ho, hrun]
      | cons s2 ss2 =>
        have hb := completeParallelStep_false g s (by simp [hrun])
        have ho := completeParallelStep_obs g s
        simp [hb, ho, hrun]
    · exact runCompleters_true_iff ss _
        (by rw [completeParallelStep_running, hrun]; simp) x hx

/-- The last serialized caller leaves with the group status as its own
status. -/
theorem runCompleters_last_status :
    ∀ (ss : List RStatus) (g : ParGroup), g.running = ss.length → ss ≠ [] →
      ((runCompleters g ss).1.map (fun x => x.2.2)).getLast? =
        some (runCompleters g ss).2.status
  | [s], g, hrun, _ => by
    by_cases hs : s = RStatus.ok <;>
      simp [runCompleters, completeParallelStep, hrun, hs]
  | s1 :: s2 :: ss, g, hrun, _ => by
    have hrun' : (completeParallelStep g s1).2.2.2.running =
        (s2 :: ss).length := by
      rw [completeParallelStep_running, hrun]
      simp
    have hrec := runCompleters_last_status (s2 :: ss) _ hrun' (by simp)
    rw [runCompleters_cons, List.map_cons]
    rw [runCompleters_cons, List.map_cons] at hrec ⊢
    rw [List.getLast?_cons_cons]
    exact hrec

/-! ## Claim theorems -/

/-- C1 (amended): in `EnterAsBatchGroupLeader`, `max_size` is 1 MiB, or
the leader's batch size plus 128 KiB when the leader's batch size is at
most 128 KiB (the source test is `size <= (128 << 10)`, not strict);
whenever the writers before candidate `w` were all admitted and `w` is
flag-compatible but the cumulative byte size including `w`'s batch would
exceed `max_size`, group construction stops: `w` and every later writer
are excluded and the group size stays at the admitted prefix.  The
witness instantiates the 200,000-byte-leader / 900,001-byte-follower
scenario of the claim. -/
theorem enterAsBatchGroupLeader_size_cutoff
    (leader : BatchWriter) (leaderSize : Nat) (hL : leader.batch = some leaderSize)
    (pre : List BatchWriter) (w : BatchWriter) (suff : List BatchWriter)
    (hpre : allAdmitted leader (maxGroupSize leaderSize) leaderSize pre = true)
    (hflags : flagsCompatible leader w = true)
    (hsize : maxGroupSize leaderSize <
      leaderSize + sumBatchSizes pre + w.batch.getD 0) :
    enterAsBatchGroupLeader leader (pre ++ w :: suff) =
      (pre, leaderSize + sumBatchSizes pre) ∧
    maxGroupSize leaderSize =
      (if leaderSize ≤ 128 * 1024 then leaderSize + 128 * 1024 else 1048576) := by
  refine ⟨?_, rfl⟩
  have hadm : admits leader (maxGroupSize leaderSize)
      (leaderSize + sumBatchSizes pre) w = false := by
    simp only [admits, hflags, Bool.true_and, decide_eq_false_iff_not]
    omega
  simp only [enterAsBatchGroupLeader, hL, Option.getD_some]
  exact pickFollowers_stops leader _ pre leaderSize w suff hpre hadm

/-- C1 witness: a leader batch of 200,000 bytes (so `max_size` is 1 MiB)
followed by a single 900,001-byte candidate: `200000 + 900001 > 1048576`,
so the candidate is excluded and the group stays at the leader alone. -/
theorem enterAsBatchGroupLeader_size_cutoff_witness :
    enterAsBatchGroupLeader ⟨some 200000, false, false, false, none⟩
        [⟨some 900001, false, false, false, none⟩] = ([], 200000) ∧
    maxGroupSize 200000 = 1048576 :=
  enterAsBatchGroupLeader_size_cutoff ⟨some 200000, false, false, false, none⟩
    200000 rfl [] ⟨some 900001, false, false, false, none⟩ [] (by decide)
    (by decide) (by decide)

/-- C1 counterexample: the claim's `max_size` rule uses "less than
128 KiB", the source uses `size <= (128 << 10)`.  At a leader batch of
exactly 131,072 bytes the claim prescribes `max_size = 1 MiB`, under
which a 900,000-byte follower (cumulative 1,031,072 ≤ 1,048,576) would
be admitted; the code computes `max_size = 262144` and excludes it. -/
theorem enterAsBatchGroupLeader_boundary_cex :
    claimedMaxGroupSize 131072 = 1048576 ∧
    131072 + 900000 ≤ claimedMaxGroupSize 131072 ∧
    maxGroupSize 131072 = 262144 ∧
    enterAsBatchGroupLeader ⟨some 131072, false, false, false, none⟩
      [⟨some 900000, false, false, false, none⟩] = ([], 131072) := by
  decide

/-- C2 (amended): group construction stops at the first follower that
has `sync` set while the leader does not (the source test is
`w->sync && !leader->sync`); that follower and every later writer are
excluded.  A follower whose `sync` merely differs from the leader's —
i.e. a non-sync follower under a sync leader — is NOT excluded (see the
counterexample). -/
theorem enterAsBatchGroupLeader_sync_cutoff
    (leader : BatchWriter) (leaderSize : Nat) (hL : leader.batch = some leaderSize)
    (pre : List BatchWriter) (w : BatchWriter) (suff : List BatchWriter)
    (hpre : allAdmitted leader (maxGroupSize leaderSize) leaderSize pre = true)
    (hws : w.sync = true) (hls : leader.sync = false) :
    enterAsBatchGroupLeader leader (pre ++ w :: suff) =
      (pre, leaderSize + sumBatchSizes pre) := by
  have hadm : admits leader (maxGroupSize leaderSize)
      (leaderSize + sumBatchSizes pre) w = false := by
    simp [admits, flagsCompatible, hws, hls]
  simp only [enterAsBatchGroupLeader, hL, Option.getD_some]
  exact pickFollowers_stops leader _ pre leaderSize w suff hpre hadm

/-- C2 witness: a sync follower behind a non-sync leader is excluded
together with everything after it. -/
theorem enterAsBatchGroupLeader_sync_cutoff_witness :
    enterAsBatchGroupLeader ⟨some 500, false, false, false, none⟩
        [⟨some 600, true, false, false, none⟩] = ([], 500) :=
  enterAsBatchGroupLeader_sync_cutoff ⟨some 500, false, false, false, none⟩ 500
    rfl [] ⟨some 600, true, false, false, none⟩ [] (by decide) rfl rfl

/-- C2 counterexample: a follower whose `sync` flag differs from the
leader's is nevertheless included when the follower is non-sync and the
leader is sync — the source only breaks on `w->sync && !leader->sync`,
not on any inequality of the two flags. -/
theorem enterAsBatchGroupLeader_sync_mismatch_included_cex :
    (⟨some 100, false, false, false, none⟩ : BatchWriter).sync ≠
      (⟨some 100, true, false, false, none⟩ : BatchWriter).sync ∧
    enterAsBatchGroupLeader ⟨some 100, true, false, false, none⟩
      [⟨some 100, false, false, false, none⟩] =
      ([⟨some 100, false, false, false, none⟩], 200) := by
  decide

/-- C3: `LinkOne` with the stall sentinel at the head and
`w.no_slowdown` set fails the writer with `Incomplete("Write stall")`
and state `COMPLETED`, returns "not leader", and leaves the queue
untouched; with no stall the writer is linked at the head and the call
returns "leader" iff the previous head was null; with a stall and
`no_slowdown` unset the call blocks, and once `EndWriteStall` has
removed the sentinel the retry links the writer, returning "leader" iff
the head it replaces is null. -/
theorem linkOne_spec (w : LWriter) (q : WTQueue) :
    (q.stalled = true → w.noSlowdown = true →
      linkOne w q =
        (.rejectedStall,
         { w with status := .incomplete "Write stall", state := .completed },
         q)) ∧
    (q.stalled = false →
      (linkOne w q).2.2 = { q with queue := w.id :: q.queue } ∧
      ((linkOne w q).1 = .linkedLeader ↔ q.queue = []) ∧
      (linkOne w q).2.1 = w) ∧
    (q.stalled = true → w.noSlowdown = false →
      (linkOne w q).1 = .blockedOnStall ∧ (linkOne w q).2.2 = q ∧
      (linkOne w (endWriteStall q)).2.2 =
        { stalled := false, queue := w.id :: q.queue } ∧
      ((linkOne w (endWriteStall q)).1 = .linkedLeader ↔ q.queue = [])) := by
  refine ⟨fun hs hn => ?_, fun hs => ?_, fun hs hn => ?_⟩
  · simp [linkOne, hs, hn]
  · cases hq : q.queue <;> simp [linkOne, hs, hq]
  · cases hq : q.queue <;> simp [linkOne, endWriteStall, hs, hn, hq]

/-- C3 witness: with the stall engaged and a non-empty queue behind the
sentinel, a `no_slowdown` writer is failed with
`Incomplete("Write stall")`, completed, and not linked. -/
theorem linkOne_spec_witness :
    linkOne ⟨7, true, .init, .ok⟩ ⟨true, [3]⟩ =
      (.rejectedStall, ⟨7, true, .completed, .incomplete "Write stall"⟩,
       ⟨true, [3]⟩) :=
  (linkOne_spec ⟨7, true, .init, .ok⟩ ⟨true, [3]⟩).1 rfl rfl

/-- C4: framing a 100,000-byte payload at block offset 0 in
non-recyclable mode (block size 32,768, header size 7) produces exactly
FIRST(32761), MIDDLE(32761), MIDDLE(32761), LAST(1717), for a total
on-disk size of 100,000 + 4 × 7 = 100,028 bytes (no block padding
occurs: the first three records exactly fill their blocks). -/
theorem walRecords_100000_fragmentation :
    kBlockSize = 32768 ∧ kHeaderSize = 7 ∧
    walRecords false 100000 0 =
      [(.kFirstType, 32761), (.kMiddleType, 32761),
       (.kMiddleType, 32761), (.kLastType, 1717)] ∧
    walOnDiskSize (walRecords false 100000 0) = 100000 + 4 * 7 := by
  refine ⟨rfl, rfl, by decide, by decide⟩

/-- C5 (amended): a `Mark` call changes the reported useful-byte count
and the bitmap only when its bit range is non-empty and its start bit
was still unset, in which case the full covered byte count
`(exclusive_end_bit - start_bit) << bytes_per_bit_pow_` is added and the
start bit is set; in particular a call whose covered bits were all
already set adds nothing.  The cumulative count is NOT bounded by the
total block bytes (see the counterexample): only the start bit is set,
so later calls may re-count bytes that were already reported. -/
theorem ampMark_first_touch (b : AmpBitmap) (so eo : Nat) :
    ((ampMark b so eo).reported =
      b.reported +
        (if ampStartBit b.pow b.rnd so < ampExclEndBit b.pow b.rnd eo ∧
            ampStartBit b.pow b.rnd so ∉ b.bits
         then (ampExclEndBit b.pow b.rnd eo - ampStartBit b.pow b.rnd so) *
            2 ^ b.pow
         else 0)) ∧
    ((ampMark b so eo).bits =
      if ampStartBit b.pow b.rnd so < ampExclEndBit b.pow b.rnd eo ∧
          ampStartBit b.pow b.rnd so ∉ b.bits
       then ampStartBit b.pow b.rnd so :: b.bits
       else b.bits) ∧
    ((∀ i, ampStartBit b.pow b.rnd so ≤ i → i < ampExclEndBit b.pow b.rnd eo →
        i ∈ b.bits) →
      (ampMark b so eo).reported = b.reported) := by
  have h12 : (ampMark b so eo).reported =
      b.reported +
        (if ampStartBit b.pow b.rnd so < ampExclEndBit b.pow b.rnd eo ∧
            ampStartBit b.pow b.rnd so ∉ b.bits
         then (ampExclEndBit b.pow b.rnd eo - ampStartBit b.pow b.rnd so) *
            2 ^ b.pow
         else 0) ∧
      (ampMark b so eo).bits =
      (if ampStartBit b.pow b.rnd so < ampExclEndBit b.pow b.rnd eo ∧
          ampStartBit b.pow b.rnd so ∉ b.bits
       then ampStartBit b.pow b.rnd so :: b.bits
       else b.bits) := by
    simp only [ampMark, ge_iff_le]
    by_cases hlt : ampStartBit b.pow b.rnd so < ampExclEndBit b.pow b.rnd eo
    · have hge' : ¬ ampExclEndBit b.pow b.rnd eo ≤ ampStartBit b.pow b.rnd so :=
        not_le.mpr hlt
      by_cases hmem : ampStartBit b.pow b.rnd so ∈ b.bits
      · simp [hge', hmem]
      · simp [hge', hmem, hlt]
    · have hge' : ampExclEndBit b.pow b.rnd eo ≤ ampStartBit b.pow b.rnd so :=
        not_lt.mp hlt
      simp [hge', hlt]
  refine ⟨h12.1, h12.2, ?_⟩
  intro hall
  rcases Nat.lt_or_ge (ampStartBit b.pow b.rnd so) (ampExclEndBit b.pow b.rnd eo)
    with hlt | hge
  · have hm : ampStartBit b.pow b.rnd so ∈ b.bits := hall _ le_rfl hlt
    rw [h12.1]
    simp [hm]
  · rw [h12.1]
    simp [Nat.not_lt.mpr hge]

/-- C5 witness: a call whose covered bits (here just bit 0) were all
already set leaves the reported count unchanged. -/
theorem ampMark_first_touch_witness :
    (ampMark ⟨0, 0, [0], 7⟩ 0 0).reported = 7 :=
  (ampMark_first_touch ⟨0, 0, [0], 7⟩ 0 0).2.2 (fun i hi1 hi2 => by
    have hi : i = 0 := by
      simp [ampStartBit, ampExclEndBit] at hi1 hi2
      omega
    simp [hi])

/-- C5 counterexample: a bitmap for a 2-byte block with
`bytes_per_bit = 1` (`pow = 0`, and `rnd_ = Uniform(1) = 0` is forced).
`Mark(0, 1)` covers bits 0 and 1 but sets only bit 0, reporting 2 bytes;
`Mark(1, 1)` then finds bit 1 still unset and reports 1 more byte —
3 bytes reported for a 2-byte block, refuting the claim's bound that the
cumulative count never exceeds the total block bytes. -/
theorem ampMark_can_exceed_block_bytes :
    2 < (ampMark (ampMark ⟨0, 0, [], 0⟩ 0 1) 1 1).reported := by
  decide

/-- C6: the sampled yield-credit update in `AwaitState` replaces `v` by
`v - v/1024 + 131072` on a successful yield phase and by
`v - v/1024 - 131072` otherwise, and repeated application of the update
keeps the credit within the 32-bit signed-integer range
(`|v| ≤ 2^31 - 1`, so no overflow occurs). -/
theorem awaitState_yield_credit (v : Int) (bs : List Bool)
    (h : |v| ≤ 2147483647) :
    (∀ u : Int, yieldCreditUpdate u true = u - Int.tdiv u 1024 + 131072) ∧
    (∀ u : Int, yieldCreditUpdate u false = u - Int.tdiv u 1024 - 131072) ∧
    |yieldCreditIter v bs| ≤ 2147483647 := by
  refine ⟨fun u => ?_, fun u => ?_, yieldCreditIter_bound bs v h⟩
  · simp [yieldCreditUpdate]
  · simp only [yieldCreditUpdate, if_false, Bool.false_eq_true]
    ring

/-- C6 witness: iterating the update from credit 0 over a concrete
sample sequence stays within the `int32_t` range. -/
theorem awaitState_yield_credit_witness :
    |yieldCreditIter 0 [true, false, false, true]| ≤ 2147483647 :=
  (awaitState_yield_credit 0 [true, false, false, true] (by decide)).2.2

/-- C7: with the running counter initialized to the group size, the
serialized `CompleteParallelMemTableWriter` calls return true for
exactly one caller — the last one, whose decrement observes the counter
at 1 — while every other caller returns false; a call returns true
exactly when it observed the counter at 1, and the last caller leaves
with the group status copied into its own status. -/
theorem completeParallelMemTableWriter_last (g : ParGroup)
    (statuses : List RStatus) (hrun : g.running = statuses.length)
    (hne : statuses ≠ []) :
    ((runCompleters g statuses).1.map (fun x => x.2.1) =
      List.replicate (statuses.length - 1) false ++ [true]) ∧
    (∀ x ∈ (runCompleters g statuses).1, (x.2.1 = true ↔ x.1 = 1)) ∧
    (((runCompleters g statuses).1.map (fun x => x.2.2)).getLast? =
      some (runCompleters g statuses).2.status) :=
  ⟨runCompleters_bools statuses g hrun hne,
   runCompleters_true_iff statuses g hrun,
   runCompleters_last_status statuses g hrun hne⟩

/-- C7 witness: three parallel writers with the counter at 3 — the first
two calls return false, only the third returns true. -/
theorem completeParallelMemTableWriter_last_witness :
    (runCompleters ⟨3, .ok⟩ [.ok, .ok, .ok]).1.map (fun x => x.2.1) =
      List.replicate 2 false ++ [true] :=
  (completeParallelMemTableWriter_last ⟨3, .ok⟩ [.ok, .ok, .ok] rfl
    (by simp)).1

/-- C8: `Valid()` returns true iff the current entry offset is strictly
below the restart-array offset, and `InitializeBase` sets
`current_ = restarts_`, so a freshly initialized block iterator is
invalid (the source asserts `num_restarts > 0`, carried here as a
hypothesis). -/
theorem blockIter_valid_iff_init_invalid (restarts numRestarts : Nat)
    (h : 0 < numRestarts) :
    (∀ s : BlockIterState, blockIterValid s = true ↔ s.current < s.restarts) ∧
    (initializeBase restarts numRestarts).current = restarts ∧
    blockIterValid (initializeBase restarts numRestarts) = false := by
  refine ⟨fun s => by simp [blockIterValid], rfl, ?_⟩
  simp [blockIterValid, initializeBase]

/-- C8 witness: a freshly initialized iterator over a block whose
restart array starts at offset 32 with 4 restarts is invalid. -/
theorem blockIter_valid_iff_init_invalid_witness :
    (initializeBase 32 4).current = 32 ∧
    blockIterValid (initializeBase 32 4) = false :=
  ⟨(blockIter_valid_iff_init_invalid 32 4 (by decide)).2.1,
   (blockIter_valid_iff_init_invalid 32 4 (by decide)).2.2⟩

/-- C9: `IndexBlockIter::SeekForPrev` rejects every target on every
state: the iterator becomes invalid (`current_` is set to the
restart-array offset), the status becomes `InvalidArgument`, and the key
and value are cleared. -/
theorem indexBlockIter_seekForPrev_rejects (s : BlockIterState)
    (target : List Nat) :
    blockIterValid (indexSeekForPrev s target) = false ∧
    (indexSeekForPrev s target).current = (indexSeekForPrev s target).restarts ∧
    (indexSeekForPrev s target).status =
      .invalidArgument
        "RocksDB internal error: should never call SeekForPrev() on index blocks" ∧
    (indexSeekForPrev s target).key = [] ∧
    (indexSeekForPrev s target).value = [] := by
  refine ⟨?_, rfl, rfl, rfl, rfl⟩
  simp [blockIterValid, indexSeekForPrev]

/-- C10: `Arena::Allocate` rejects zero-byte requests, and on the fast
path (`0 < bytes ≤ alloc_bytes_remaining_`) returns the unaligned bump
pointer decremented by `bytes`, decreases `alloc_bytes_remaining_` by
exactly `bytes`, keeps `blocks_memory_`, `blocks_` and the vector
capacity unchanged (no new block), and therefore grows
`ApproximateMemoryUsage` by exactly `bytes`. -/
theorem arenaAllocate_fast_path (s : ArenaState) (bytes : Nat)
    (h0 : 0 < bytes) (h1 : bytes ≤ s.allocBytesRemaining)
    (h2 : s.allocBytesRemaining ≤ s.blocksMemory + s.blocksCapacity * 8) :
    arenaAllocate 0 s = none ∧
    arenaAllocate bytes s =
      some (s.unalignedPtr - bytes,
        { s with
          unalignedPtr := s.unalignedPtr - bytes
          allocBytesRemaining := s.allocBytesRemaining - bytes }) ∧
    approximateMemoryUsage
      { s with
        unalignedPtr := s.unalignedPtr - bytes
        allocBytesRemaining := s.allocBytesRemaining - bytes } =
      approximateMemoryUsage s + bytes := by
  have hz : bytes ≠ 0 := by omega
  refine ⟨rfl, ?_, ?_⟩
  · simp [arenaAllocate, hz, h1]
  · simp only [approximateMemoryUsage]
    omega

/-- C10 witness: allocating 10 bytes from an arena with a 4096-byte
block, 100 bytes remaining and the bump pointer at 5000 returns 4990,
leaves 90 bytes remaining, and grows the usage estimate by 10. -/
theorem arenaAllocate_fast_path_witness :
    arenaAllocate 0 ⟨4096, 1, 5000, 100, [10]⟩ = none ∧
    arenaAllocate 10 ⟨4096, 1, 5000, 100, [10]⟩ =
      some (4990, ⟨4096, 1, 4990, 90, [10]⟩) ∧
    approximateMemoryUsage (⟨4096, 1, 4990, 90, [10]⟩ : ArenaState) =
      approximateMemoryUsage ⟨4096, 1, 5000, 100, [10]⟩ + 10 :=
  arenaAllocate_fast_path ⟨4096, 1, 5000, 100, [10]⟩ 10 (by decide) (by decide)
    (by decide)

end RocksDB
